import Mathlib

/-!
Verification of the Crunch restaurant-directory client (crunch_prototype.tsx).

The TypeScript source is shallowly embedded: JS strings are lists of
characters, nullable values are Option, arrays are lists, numbers are
rationals or integers, JSON values are an inductive type with an
executable parser standing in for JSON.parse, and the stateful React
component is modelled by pure state-transition functions that take the
outcome of each remote call as an explicit argument.
-/

namespace Crunch

/-- JS strings are modelled as lists of characters. -/
abbrev Str := List Char

/-- Whitespace test backing the models of JS trim and of the regex class
backslash-s (ASCII whitespace; exotic Unicode space characters are not
modelled). -/
def isWS (c : Char) : Bool :=
  c == ' ' || c == '\t' || c == '\n' || c == '\r' || c == '\x0b' || c == '\x0c'

/-- Model of String.prototype.trim: strip whitespace from both ends. -/
def trim (s : Str) : Str :=
  ((s.dropWhile isWS).reverse.dropWhile isWS).reverse

/-- Model of String.prototype.toLowerCase, using the ASCII lowercasing of
one character from core (Char.toLower). -/
def toLower (s : Str) : Str := s.map Char.toLower

/-- Helper for collapseWS: the flag records whether the previous character
was part of a whitespace run whose single replacement space was already
emitted. -/
def collapseWSAux : Bool → Str → Str
  | _, [] => []
  | inWS, c :: rest =>
    if isWS c then
      if inWS then collapseWSAux true rest
      else ' ' :: collapseWSAux true rest
    else c :: collapseWSAux false rest

/-- Model of replace with the global regex of one-or-more whitespace and
the replacement string of a single space: collapse whitespace runs. -/
def collapseWS (s : Str) : Str := collapseWSAux false s

/-- Model of replace with the global regex class of hyphen, en dash and
em dash and the replacement of a plain hyphen (used by canonicalDiet). -/
def dashNorm (s : Str) : Str :=
  s.map (fun c => if c == '-' || c == '–' || c == '—' then '-' else c)

/-- Model of the JS substring test hay.includes(needle). -/
def strIncludes (hay needle : Str) : Bool :=
  match hay with
  | [] => needle.isEmpty
  | _ :: t => needle.isPrefixOf hay || strIncludes t needle

/-- Lookup in a string-keyed record literal, modelling map[v] access on the
synonym tables (keys in those tables are distinct, so first match wins). -/
def lookupStr (m : List (Str × Str)) (k : Str) : Option Str :=
  (m.find? (fun p => p.1 == k)).map (fun p => p.2)

/-- Synonym table of canonicalCity, from the source. -/
def cityMap : List (Str × Str) :=
  [("nyc".data, "New York".data),
   ("new york".data, "New York".data),
   ("new york city".data, "New York".data),
   ("los angeles".data, "Los Angeles".data),
   ("la".data, "Los Angeles".data),
   ("san francisco".data, "San Francisco".data),
   ("sf".data, "San Francisco".data),
   ("san fran".data, "San Francisco".data),
   ("houston".data, "Houston".data),
   ("austin".data, "Austin".data)]

/-- canonicalCity from the source: lower-case the trimmed value, look it up
in the synonym table, and otherwise fall back to the trimmed input. -/
def canonicalCity (value : Str) : Str :=
  let v := toLower (trim value)
  match lookupStr cityMap v with
  | some c => c
  | none => trim value

/-- Known canonical city names, from the source. -/
def knownCities : List Str :=
  ["New York".data, "Los Angeles".data, "San Francisco".data,
   "Houston".data, "Austin".data]

/-- Ordered synonym list used by getCity for substring inference. -/
def citySynonyms : List (Str × Str) :=
  [("nyc".data, "New York".data),
   ("new york city".data, "New York".data),
   ("new york".data, "New York".data),
   ("los angeles".data, "Los Angeles".data),
   ("la".data, "Los Angeles".data),
   ("san francisco".data, "San Francisco".data),
   ("san fran".data, "San Francisco".data),
   ("sf".data, "San Francisco".data),
   ("houston".data, "Houston".data),
   ("austin".data, "Austin".data)]

/-- Synonym table of canonicalDiet, from the source (the two garbled bytes
in the source file are the en and em dash of the original regex). -/
def dietMap : List (Str × Str) :=
  [("seed oil free".data, "seed-oil free".data),
   ("seed-oil-free".data, "seed-oil free".data),
   ("no seed oils".data, "seed-oil free".data),
   ("no seed oil".data, "seed-oil free".data),
   ("no seed-oils".data, "seed-oil free".data),
   ("no seed-oil".data, "seed-oil free".data),
   ("no-industrial-seed-oils".data, "seed-oil free".data),
   ("no-industrial-seed-oil".data, "seed-oil free".data),
   ("seed oil-free".data, "seed-oil free".data),
   ("seed-oil- free".data, "seed-oil free".data),
   ("plant based".data, "plant-based".data),
   ("low fodmap".data, "low fodmap".data),
   ("diabetic friendly".data, "diabetic-friendly".data),
   ("heart healthy".data, "heart-healthy".data),
   ("gluten free".data, "gluten-free".data),
   ("dairy free".data, "dairy-free".data),
   ("nut free".data, "nut-free".data),
   ("soy free".data, "soy-free".data),
   ("egg free".data, "egg-free".data),
   ("shellfish free".data, "shellfish-free".data),
   ("sesame free".data, "sesame-free".data),
   ("no added sugar".data, "no added sugar".data),
   ("no artificial sweeteners".data, "no artificial sweeteners".data),
   ("organic ingredients".data, "organic ingredients".data),
   ("locally sourced".data, "locally sourced".data)]

/-- Normalization key computed by canonicalDiet before the table lookup:
trim, lower-case, collapse whitespace, normalize dash characters. -/
def dietKey (value : Str) : Str :=
  dashNorm (collapseWS (toLower (trim value)))

/-- canonicalDiet from the source: empty input maps to the empty string;
otherwise the normalization key is looked up in the synonym table, falling
back to the key itself. -/
def canonicalDiet (value : Str) : Str :=
  if value.isEmpty then []
  else
    let v := dietKey value
    match lookupStr dietMap v with
    | some c => c
    | none => v

/-- Modelled from the spec: the fallback value the spec describes for the
canonicalization functions, namely the input lowercased, trimmed and
whitespace-collapsed. Used only to compare the spec wording with the
code. -/
def specLowerTrimCollapse (s : Str) : Str :=
  collapseWS (toLower (trim s))

/-! JSON model. Loosely typed row fields and JSON.parse results are
modelled by an inductive value type with an executable fuel-based parser. -/

/-- JSON values, also standing in for loosely typed JS values coming from
the backend (null covers both null and undefined). -/
inductive JsonVal where
  | null : JsonVal
  | bool (b : Bool) : JsonVal
  | num (q : ℚ) : JsonVal
  | str (s : Str) : JsonVal
  | arr (elems : List JsonVal) : JsonVal
  | obj (members : List (Str × JsonVal)) : JsonVal

/-- JS truthiness of a modelled value. -/
def jsTruthy : JsonVal → Bool
  | JsonVal.null => false
  | JsonVal.bool b => b
  | JsonVal.num q => decide (q ≠ 0)
  | JsonVal.str s => !s.isEmpty
  | JsonVal.arr _ => true
  | JsonVal.obj _ => true

/-- JS falsiness of a modelled value. -/
def jsFalsy (v : JsonVal) : Bool := !jsTruthy v

/-- JS logical-or of two values: the first if truthy, else the second. -/
def jsOr (a b : JsonVal) : JsonVal := if jsTruthy a then a else b

/-- Property access on a modelled object, last binding winning as for
duplicate keys in JSON.parse; a missing key reads as null/undefined. -/
def jsGet (members : List (Str × JsonVal)) (key : Str) : JsonVal :=
  match members.reverse.find? (fun p => p.1 == key) with
  | some p => p.2
  | none => JsonVal.null

/-- Hexadecimal digit value, for string escapes. -/
def hexVal (c : Char) : Option ℕ :=
  if c.isDigit then some (c.toNat - 48)
  else if 'a' ≤ c ∧ c ≤ 'f' then some (c.toNat - 87)
  else if 'A' ≤ c ∧ c ≤ 'F' then some (c.toNat - 55)
  else none

/-- JSON string-body parser (called after the opening quote): returns the
decoded content and the remaining input after the closing quote. -/
def pString : Str → Option (Str × Str)
  | [] => none
  | '"' :: rest => some ([], rest)
  | '\\' :: esc =>
    match esc with
    | '"' :: r => (pString r).map (fun p => ('"' :: p.1, p.2))
    | '\\' :: r => (pString r).map (fun p => ('\\' :: p.1, p.2))
    | '/' :: r => (pString r).map (fun p => ('/' :: p.1, p.2))
    | 'b' :: r => (pString r).map (fun p => ('\x08' :: p.1, p.2))
    | 'f' :: r => (pString r).map (fun p => ('\x0c' :: p.1, p.2))
    | 'n' :: r => (pString r).map (fun p => ('\n' :: p.1, p.2))
    | 'r' :: r => (pString r).map (fun p => ('\r' :: p.1, p.2))
    | 't' :: r => (pString r).map (fun p => ('\t' :: p.1, p.2))
    | 'u' :: a :: b :: c :: d :: r =>
      match hexVal a, hexVal b, hexVal c, hexVal d with
      | some va, some vb, some vc, some vd =>
        (pString r).map
          (fun p => (Char.ofNat (((va * 16 + vb) * 16 + vc) * 16 + vd) :: p.1, p.2))
      | _, _, _, _ => none
    | _ => none
  | c :: rest => (pString rest).map (fun p => (c :: p.1, p.2))

/-- Numeric value of a digit run. -/
def digitsToNat (ds : Str) : ℕ :=
  ds.foldl (fun acc c => acc * 10 + (c.toNat - 48)) 0

/-- Fractional part of a JSON number (optional). -/
def pFrac (s : Str) : Option (ℚ × Str) :=
  match s with
  | '.' :: r =>
    let ds := r.takeWhile Char.isDigit
    if ds.isEmpty then none
    else some ((digitsToNat ds : ℚ) / (10 : ℚ) ^ ds.length, r.dropWhile Char.isDigit)
  | _ => some (0, s)

/-- Exponent part of a JSON number (optional). -/
def pExp (s : Str) : Option (ℤ × Str) :=
  match s with
  | c :: r =>
    if c == 'e' || c == 'E' then
      let sgnRest : ℤ × Str := match r with
        | '+' :: r2 => (1, r2)
        | '-' :: r2 => (-1, r2)
        | _ => (1, r)
      let ds := sgnRest.2.takeWhile Char.isDigit
      if ds.isEmpty then none
      else some (sgnRest.1 * (digitsToNat ds : ℤ), sgnRest.2.dropWhile Char.isDigit)
    else some (0, c :: r)
  | [] => some (0, [])

/-- JSON number parser. -/
def pNumber (s : Str) : Option (ℚ × Str) :=
  let negRest : Bool × Str := match s with
    | '-' :: r => (true, r)
    | _ => (false, s)
  let ds := negRest.2.takeWhile Char.isDigit
  if ds.isEmpty then none
  else
    let ip : ℚ := (digitsToNat ds : ℚ)
    match pFrac (negRest.2.dropWhile Char.isDigit) with
    | none => none
    | some (fq, s3) =>
      match pExp s3 with
      | none => none
      | some (e, s4) =>
        let mag := (ip + fq) * (10 : ℚ) ^ e
        some (if negRest.1 then -mag else mag, s4)

/-- Whitespace skipping between JSON tokens. -/
def skipWs (s : Str) : Str := s.dropWhile isWS

/-- Opening curly brace character. -/
def openBrace : Char := Char.ofNat 123

/-- Closing curly brace character. -/
def closeBrace : Char := Char.ofNat 125

mutual

/-- JSON value parser (fuel-based; the fuel bounds nesting and is chosen
large enough in jsonParse that it never runs out on real input). -/
def pValue : ℕ → Str → Option (JsonVal × Str)
  | 0, _ => none
  | fuel + 1, s =>
    match skipWs s with
    | 'n' :: 'u' :: 'l' :: 'l' :: r => some (JsonVal.null, r)
    | 't' :: 'r' :: 'u' :: 'e' :: r => some (JsonVal.bool true, r)
    | 'f' :: 'a' :: 'l' :: 's' :: 'e' :: r => some (JsonVal.bool false, r)
    | '"' :: r => (pString r).map (fun p => (JsonVal.str p.1, p.2))
    | '[' :: r =>
      match skipWs r with
      | ']' :: r2 => some (JsonVal.arr [], r2)
      | _ => (pElems fuel r).map (fun p => (JsonVal.arr p.1, p.2))
    | c :: r =>
      if c == openBrace then
        match skipWs r with
        | c2 :: r2 =>
          if c2 == closeBrace then some (JsonVal.obj [], r2)
          else (pMembers fuel r).map (fun p => (JsonVal.obj p.1, p.2))
        | [] => none
      else if c == '-' || c.isDigit then
        (pNumber (c :: r)).map (fun p => (JsonVal.num p.1, p.2))
      else none
    | [] => none

/-- JSON array-element list parser (after the opening bracket, at least
one element). -/
def pElems : ℕ → Str → Option (List JsonVal × Str)
  | 0, _ => none
  | fuel + 1, s =>
    match pValue fuel s with
    | none => none
    | some (v, r) =>
      match skipWs r with
      | ',' :: r2 => (pElems fuel r2).map (fun p => (v :: p.1, p.2))
      | ']' :: r2 => some ([v], r2)
      | _ => none

/-- JSON object-member list parser (after the opening brace, at least one
member). -/
def pMembers : ℕ → Str → Option (List (Str × JsonVal) × Str)
  | 0, _ => none
  | fuel + 1, s =>
    match skipWs s with
    | '"' :: r =>
      match pString r with
      | none => none
      | some (k, r2) =>
        match skipWs r2 with
        | ':' :: r3 =>
          match pValue fuel r3 with
          | none => none
          | some (v, r4) =>
            match skipWs r4 with
            | ',' :: r5 => (pMembers fuel r5).map (fun p => ((k, v) :: p.1, p.2))
            | c :: r5 => if c == closeBrace then some ([(k, v)], r5) else none
            | [] => none
        | _ => none
    | _ => none

end

/-- Model of JSON.parse: parse one value and require only whitespace to
remain; any failure is the thrown-SyntaxError case, modelled as none. -/
def jsonParse (s : Str) : Option JsonVal :=
  match pValue (2 * s.length + 2) s with
  | some (v, rest) => if (skipWs rest).isEmpty then some v else none
  | none => none

/-! Field Normalizer (mapRestaurantRow and its helpers). -/

/-- Test of the case-insensitive regex anchored at the start matching
http or https followed by colon-slash-slash. -/
def isAbsUrl (s : Str) : Bool :=
  "http://".data.isPrefixOf (toLower s) || "https://".data.isPrefixOf (toLower s)

/-- Fixed fallback image URL from the source. -/
def fallbackImage : Str :=
  "https://images.unsplash.com/photo-1490474418585-ba9bad8fd0ea?q=80&w=1600&auto=format&fit=crop".data

/-- Raw backend restaurant row (snake case), with every field that the
backend may omit or null modelled as Option or JsonVal. -/
structure RestaurantRow where
  id : ℤ
  name : Option Str
  address : Option Str
  neighborhood : Option Str
  city : Option Str
  location : Option (Str ⊕ ℤ)
  oils_used : Option (Str ⊕ List Str)
  oils_avoided : Option (Str ⊕ List Str)
  restaurant_dietary_tags : Option (List (Option Str))
  city_rel : Option Str
  verified : Option Bool
  verification_date : Option Str
  verification_method : Option Str
  website : Option Str
  instagram : Option Str
  menu_link : Option Str
  price_range : Option Str
  order_type : Option Str
  sourcing_notes : Option Str
  image_url : Option Str
  image_urls : JsonVal
  rating : Option ℚ
  review_count : Option ℤ
  hours : Option Str
  cuisine : Option Str
  last_updated : Option Str
  phone : Option Str
  email : Option Str
  latitude : Option ℚ
  longitude : Option ℚ
  outdoor_seating : Option Bool
  delivery : Option Bool
  family_friendly : Option Bool
  celiac_safe : Option Bool
  recommended_dishes : JsonVal
  social_links : JsonVal

/-- Canonical UI-facing restaurant entity. -/
structure Restaurant where
  id : ℤ
  name : Str
  address : Str
  neighborhood : Str
  city : Str
  oilsUsed : List Str
  oilsAvoided : List Str
  dietaryTags : List Str
  verified : Bool
  verificationDate : Option Str
  verificationMethod : Option Str
  website : Str
  instagram : Str
  menuLink : Str
  priceRange : Str
  orderType : Str
  sourcingNotes : Str
  imageUrl : Str
  imageUrls : List Str
  rating : ℚ
  reviewCount : ℤ
  hours : Str
  cuisine : Str
  lastUpdated : Str
  phone : Str
  email : Str
  latitude : Option ℚ
  longitude : Option ℚ
  outdoorSeating : Option Bool
  delivery : Option Bool
  familyFriendly : Option Bool
  celiacSafe : Option Bool
  recommendedDishes : Option JsonVal
  socialLinks : Option JsonVal

/-- splitToArray from the source: arrays pass through with falsy entries
removed; strings are split on semicolon, comma or newline, trimmed, with
empty pieces removed; anything else yields the empty array. -/
def splitToArray : Option (Str ⊕ List Str) → List Str
  | some (Sum.inr l) => l.filter (fun s => !s.isEmpty)
  | some (Sum.inl s) =>
    ((s.splitOnP (fun c => c == ';' || c == ',' || c == '\n')).map trim).filter
      (fun s => !s.isEmpty)
  | none => []

/-- Keyword set whose members indicate an in-person visit, from the
source (identical in mapRestaurantRow and getVerifyLabel). -/
def visitedKeywords : List Str :=
  ["crunch team visited".data, "visited".data, "visit".data, "site visit".data,
   "in person".data, "in-person".data, "team visited".data]

/-- Keyword set whose members indicate a phone call, from the source
(identical in mapRestaurantRow and getVerifyLabel). -/
def calledKeywords : List Str :=
  ["crunch team called".data, "called".data, "call".data, "phone".data,
   "phone call".data, "phone-call".data, "phone verified".data,
   "phone-verified".data, "called by crunch".data, "team called".data]

/-- Classification of the raw verification_method field inside
mapRestaurantRow: falsy input stays null; a visited-keyword substring
match wins, then a called-keyword match, else Owner Submitted. -/
def classifyVerificationMethod (raw : Option Str) : Option Str :=
  match raw with
  | none => none
  | some s =>
    if s.isEmpty then none
    else
      let m := toLower (trim s)
      if visitedKeywords.any (fun t => strIncludes m t) then
        some "Crunch Team Visited".data
      else if calledKeywords.any (fun t => strIncludes m t) then
        some "Crunch Team Called".data
      else some "Owner Submitted".data

/-- getVerifyLabel from the source: non-empty label exactly when the
(stringified, trimmed, lowercased) method contains a visited or called
keyword. -/
def getVerifyLabel (method : Option Str) : Str :=
  let m := toLower (trim (method.getD []))
  if m.isEmpty then []
  else if visitedKeywords.any (fun t => strIncludes m t)
      || calledKeywords.any (fun t => strIncludes m t) then
    "Verified By Crunch".data
  else []

/-- Key strings used by the image resolution code. -/
def urlKey : Str := "url".data

/-- Key string src. -/
def srcKey : Str := "src".data

/-- Key string images. -/
def imagesKey : Str := "images".data

/-- Candidate URL extracted from one entry of an images array: a string
entry must itself be an absolute URL; an object entry contributes its url
or src member when that is an absolute-URL string. -/
def entryUrl (x : JsonVal) : Option Str :=
  let url := match x with
    | JsonVal.str s => JsonVal.str s
    | JsonVal.obj f => jsOr (jsGet f urlKey) (jsGet f srcKey)
    | _ => JsonVal.null
  match url with
  | JsonVal.str s => if isAbsUrl s then some s else none
  | _ => none

/-- Second probe of the array branch of resolvePrimaryImage: find the
first object member having a string url or src, then accept its url-or-src
only when it is an absolute URL (otherwise the whole branch yields
nothing and control falls through to the trailing plain-string check). -/
def fromObjResult (l : List JsonVal) : Option Str :=
  match l.find? (fun x =>
      match x with
      | JsonVal.obj f =>
        (match jsGet f urlKey with | JsonVal.str _ => true | _ => false)
        || (match jsGet f srcKey with | JsonVal.str _ => true | _ => false)
      | _ => false) with
  | some (JsonVal.obj f) =>
    match jsOr (jsGet f urlKey) (jsGet f srcKey) with
    | JsonVal.str s => if isAbsUrl s then some s else none
    | _ => none
  | _ => none

/-- Object branch of resolvePrimaryImage: direct url-or-src member if it
is an absolute-URL string, else the first suitable entry of an images
array member. -/
def objCandidate (f : List (Str × JsonVal)) : Option Str :=
  let direct := jsOr (jsGet f urlKey) (jsGet f srcKey)
  match direct with
  | JsonVal.str s =>
    if isAbsUrl s then some s
    else
      match jsGet f imagesKey with
      | JsonVal.arr imgs => imgs.findSome? entryUrl
      | _ => none
  | _ =>
    match jsGet f imagesKey with
    | JsonVal.arr imgs => imgs.findSome? entryUrl
    | _ => none

/-- Candidate URL from a successfully parsed secondary images value,
following the source order: array of strings, array of objects with
url/src, object with url/src, object with an images array, plain
string. -/
def parsedCandidate : JsonVal → Option Str
  | JsonVal.arr l =>
    match l.find? (fun x =>
        match x with
        | JsonVal.str s => isAbsUrl s
        | _ => false) with
    | some (JsonVal.str s) => some s
    | _ => fromObjResult l
  | JsonVal.obj f => objCandidate f
  | JsonVal.str s => if isAbsUrl s then some s else none
  | _ => none

/-- resolvePrimaryImage from the source: the trimmed primary field wins
when it is an absolute URL; otherwise the (trimmed when a string)
secondary field is JSON-parsed if a string and inspected; otherwise a
string secondary that is itself an absolute URL; otherwise the fixed
fallback URL. -/
def resolvePrimaryImage (row : RestaurantRow) : Str :=
  let primary := trim (row.image_url.getD [])
  if !primary.isEmpty && isAbsUrl primary then primary
  else
    let iu := match row.image_urls with
      | JsonVal.str s => JsonVal.str (trim s)
      | v => v
    if jsFalsy iu then fallbackImage
    else
      let parsedOpt : Option JsonVal := match iu with
        | JsonVal.str s => jsonParse s
        | v => some v
      let viaParse : Option Str := match parsedOpt with
        | some parsed => parsedCandidate parsed
        | none => none
      match viaParse with
      | some url => url
      | none =>
        match iu with
        | JsonVal.str s =>
          let t := trim s
          if isAbsUrl t then t else fallbackImage
        | _ => fallbackImage

/-- Order-preserving removal of duplicates (first occurrence wins),
modelling Array.from over a Set. -/
def dedupFirstAux (seen : List Str) : List Str → List Str
  | [] => []
  | x :: xs =>
    if seen.contains x then dedupFirstAux seen xs
    else x :: dedupFirstAux (x :: seen) xs

/-- resolveImageArray from the source: the absolute primary URL followed
by every absolute URL found in the parsed secondary field, deduplicated.
A parse failure keeps only what was already collected. -/
def resolveImageArray (row : RestaurantRow) : List Str :=
  let primary := trim (row.image_url.getD [])
  let primaryPart := if !primary.isEmpty && isAbsUrl primary then [primary] else []
  let rest :=
    if jsFalsy row.image_urls then []
    else
      match (match row.image_urls with
        | JsonVal.str s => jsonParse s
        | v => some v) with
      | some (JsonVal.arr l) => l.filterMap entryUrl
      | some (JsonVal.obj f) =>
        match jsGet f imagesKey with
        | JsonVal.arr l => l.filterMap entryUrl
        | _ => []
      | _ => []
  dedupFirstAux [] (primaryPart ++ rest)

/-- Extra loosely typed fields (recommended_dishes, social_links): falsy
input is undefined; a string is JSON-parsed, keeping the raw string when
parsing fails; anything else passes through. -/
def parseExtra (v : JsonVal) : Option JsonVal :=
  if jsFalsy v then none
  else some (match v with
    | JsonVal.str s =>
      (match jsonParse s with
       | some p => p
       | none => JsonVal.str s)
    | x => x)

/-- City field of the mapped restaurant: the joined city-relation name,
else the city column when a non-empty string, else a string location
column, else empty. -/
def rowCity (row : RestaurantRow) : Str :=
  match row.city_rel with
  | some n => n
  | none =>
    let c := row.city.getD []
    if !c.isEmpty then c
    else
      match row.location with
      | some (Sum.inl s) => s
      | _ => []

/-- Dietary tags derived from the many-to-many join rows, dropping null
joins and falsy names. -/
def tagsFromJoin (row : RestaurantRow) : List Str :=
  ((row.restaurant_dietary_tags.getD []).map (fun j => j.getD [])).filter
    (fun s => !s.isEmpty)

/-- mapRestaurantRow from the source. The today argument models the
current date string used as the default of last_updated. -/
def mapRestaurantRow (today : Str) (row : RestaurantRow) : Restaurant :=
  { id := row.id
    name := row.name.getD []
    address := row.address.getD []
    neighborhood := row.neighborhood.getD []
    city := rowCity row
    oilsUsed := splitToArray row.oils_used
    oilsAvoided := splitToArray row.oils_avoided
    dietaryTags := tagsFromJoin row
    verified := row.verified.getD false
    verificationDate := row.verification_date
    verificationMethod := classifyVerificationMethod row.verification_method
    website := row.website.getD []
    instagram := row.instagram.getD []
    menuLink := row.menu_link.getD []
    priceRange := row.price_range.getD "$$".data
    orderType := row.order_type.getD "Dine-in".data
    sourcingNotes := row.sourcing_notes.getD []
    imageUrl := resolvePrimaryImage row
    imageUrls := resolveImageArray row
    rating := row.rating.getD 0
    reviewCount := row.review_count.getD 0
    hours := row.hours.getD []
    cuisine := row.cuisine.getD []
    lastUpdated := row.last_updated.getD today
    phone := row.phone.getD []
    email := row.email.getD []
    latitude := row.latitude
    longitude := row.longitude
    outdoorSeating := row.outdoor_seating
    delivery := row.delivery
    familyFriendly := row.family_friendly
    celiacSafe := row.celiac_safe
    recommendedDishes := parseExtra row.recommended_dishes
    socialLinks := parseExtra row.social_links }

/-! Filter/Sort Engine. -/

/-- getCity from the source: a restaurant with a non-blank city field uses
its canonicalized city; otherwise the lowercased address-plus-neighborhood
text is probed for the ordered synonym list first, then the ordered
canonical-name list, defaulting to the empty string. -/
def getCity (r : Restaurant) : Str :=
  if !(trim r.city).isEmpty then canonicalCity r.city
  else
    let src := toLower (r.address ++ (' ' :: r.neighborhood))
    match citySynonyms.find? (fun p => strIncludes src p.1) with
    | some p => p.2
    | none =>
      match knownCities.find? (fun c => strIncludes src (toLower c)) with
      | some c => c
      | none => []

/-- Active filter selections. -/
structure Filters where
  diet : List Str
  oils : List Str
  neighborhood : Str
  priceRange : Str
  verified : Bool

/-- Sort selector values. -/
inductive SortBy where
  | rating : SortBy
  | name : SortBy
  | recent : SortBy
  | price : SortBy
  | verified : SortBy
  | updated : SortBy

/-- Filter-relevant UI state feeding filteredRestaurants. -/
structure FilterState where
  selectedCity : Str
  searchQuery : Str
  filters : Filters
  sortBy : SortBy

/-- Monotone numeric model of new Date(s).getTime() on ISO
year-month-day strings: only comparisons of these values influence the
sort, and this model preserves the date order. -/
def dateValue (s : Str) : ℤ :=
  match (trim s).splitOnP (fun c => c == '-') with
  | [y, m, d] =>
    (digitsToNat y : ℤ) * 10000 + (digitsToNat m : ℤ) * 100 + (digitsToNat d : ℤ)
  | _ => 0

/-- Sort comparator from the source (rating descending, price ascending
by tier length, verified first, most recently updated first, otherwise
keep order). -/
def sortCmp (sb : SortBy) (a b : Restaurant) : ℚ :=
  match sb with
  | SortBy.rating => b.rating - a.rating
  | SortBy.price => ((a.priceRange.length : ℤ) : ℚ) - ((b.priceRange.length : ℤ) : ℚ)
  | SortBy.verified =>
    ((if b.verified then (1 : ℚ) else 0)) - ((if a.verified then (1 : ℚ) else 0))
  | SortBy.updated => ((dateValue b.lastUpdated : ℚ)) - ((dateValue a.lastUpdated : ℚ))
  | _ => 0

/-- Filter predicate of filteredRestaurants, one conjunct per dimension,
from the source. -/
def passesFilters (st : FilterState) (restaurant : Restaurant) : Bool :=
  let city := getCity restaurant
  let matchesCity := city == canonicalCity st.selectedCity
  let matchesSearch :=
    strIncludes (toLower restaurant.name) (toLower st.searchQuery)
    || strIncludes (toLower restaurant.cuisine) (toLower st.searchQuery)
    || strIncludes (toLower restaurant.neighborhood) (toLower st.searchQuery)
  let dbDietSet := restaurant.dietaryTags.map canonicalDiet
  let selectedDiet := st.filters.diet.map canonicalDiet
  let matchesDiet := selectedDiet.isEmpty || selectedDiet.any (fun d => dbDietSet.contains d)
  let matchesOils := st.filters.oils.isEmpty
    || st.filters.oils.any (fun oil => restaurant.oilsUsed.contains oil)
  let matchesNeighborhood := st.filters.neighborhood.isEmpty
    || restaurant.neighborhood == st.filters.neighborhood
  let matchesPrice := st.filters.priceRange.isEmpty
    || restaurant.priceRange == st.filters.priceRange
  let matchesVerified := !st.filters.verified || restaurant.verified
  matchesCity && matchesSearch && matchesDiet && matchesOils
    && matchesNeighborhood && matchesPrice && matchesVerified

/-- filteredRestaurants from the source: filter then sort by the selected
comparator (the sort is modelled by a stable merge sort, as Array.sort
with this comparator is stable in the host runtime). -/
def filteredRestaurants (restaurants : List Restaurant) (st : FilterState) :
    List Restaurant :=
  (restaurants.filter (passesFilters st)).mergeSort
    (fun a b => decide (sortCmp st.sortBy a b ≤ 0))

/-- Example raw row with every field absent, used as the base of the
concrete rows appearing in witnesses. -/
def emptyRow : RestaurantRow :=
  { id := 0, name := none, address := none, neighborhood := none, city := none,
    location := none, oils_used := none, oils_avoided := none,
    restaurant_dietary_tags := none, city_rel := none, verified := none,
    verification_date := none, verification_method := none, website := none,
    instagram := none, menu_link := none, price_range := none, order_type := none,
    sourcing_notes := none, image_url := none, image_urls := JsonVal.null,
    rating := none, review_count := none, hours := none, cuisine := none,
    last_updated := none, phone := none, email := none, latitude := none,
    longitude := none, outdoor_seating := none, delivery := none,
    family_friendly := none, celiac_safe := none,
    recommended_dishes := JsonVal.null, social_links := JsonVal.null }

/-- Example canonical restaurant with neutral fields, obtained by
normalizing the all-absent row; base of the concrete restaurants in
witnesses. -/
def emptyRestaurant : Restaurant := mapRestaurantRow "2025-06-01".data emptyRow

/-- Witness restaurant A of the spec filtering example. -/
def restA : Restaurant :=
  { emptyRestaurant with
    name := "A".data, city := "NYC".data, dietaryTags := ["Keto".data] }

/-- Witness restaurant B of the spec filtering example. -/
def restB : Restaurant :=
  { emptyRestaurant with
    name := "B".data, city := "NYC".data, dietaryTags := ["Vegan".data] }

/-- Witness restaurant C of the spec filtering example. -/
def restC : Restaurant :=
  { emptyRestaurant with
    name := "C".data, city := "LA".data, dietaryTags := ["Keto".data] }

/-- Witness filter state of the spec filtering example: city NYC, diet
filter Keto, everything else inactive. -/
def exampleFilterState : FilterState :=
  { selectedCity := "NYC".data, searchQuery := [],
    filters := { diet := ["Keto".data], oils := [], neighborhood := [],
                 priceRange := [], verified := false },
    sortBy := SortBy.rating }

/-! Pagination/Fetch Coordinator. -/

/-- Fixed page size of the fetch coordinator, from the source. -/
def pageSize : ℕ := 20

/-- Slice of the component state touched by the restaurants query of
fetchData; the separately fetched pending list and the loading flag do
not interact with the claims. -/
structure FetchState where
  restaurants : List Restaurant
  page : ℕ
  hasMore : Bool
  loadError : Option Str

/-- First row offset requested by fetchData. -/
def requestFrom (reset : Bool) (page : ℕ) : ℕ :=
  (if reset then 0 else page) * pageSize

/-- Last row offset requested by fetchData. -/
def requestTo (reset : Bool) (page : ℕ) : ℕ :=
  requestFrom reset page + pageSize - 1

/-- Error message of the restaurants-query failure branch. -/
def loadErrMsg (msg : Str) : Str := "Failed to load restaurants: ".data ++ msg

/-- fetchData from the source, restricted to the restaurants query; the
remote response (rows plus optional exact count, or an error) is passed
explicitly. loadError is cleared on entry; on success the requested page
replaces or extends the collection, the cursor becomes 1 or advances, and
hasMore compares the end of the requested range against the count when
one is available, else checks whether the page was full; on error only
loadError is recorded. -/
def fetchData (today : Str) (st : FetchState) (reset : Bool)
    (resp : Except Str (List RestaurantRow × Option ℕ)) : FetchState :=
  let st0 : FetchState := { st with loadError := none }
  match resp with
  | Except.error msg => { st0 with loadError := some (loadErrMsg msg) }
  | Except.ok (rows, count) =>
    let mapped := rows.map (mapRestaurantRow today)
    { st0 with
      restaurants := if reset then mapped else st.restaurants ++ mapped
      hasMore := match count with
        | some c => decide (requestTo reset st.page + 1 < c)
        | none => rows.length == pageSize
      page := if reset then 1 else st.page + 1 }

/-- Initial coordinator state fixture used by witnesses (page cursor 0,
nothing loaded). -/
def initFetchState : FetchState :=
  { restaurants := [], page := 0, hasMore := true, loadError := none }

/-! View/Navigation State Machine. -/

/-- Application views. -/
inductive View where
  | home : View
  | results : View
  | admin : View
  | about : View
  | contact : View
  | suggest : View
deriving DecidableEq

/-- Recognition of the six valid view names, modelling both the allowed
list of getInitialView and the switch of viewFromHash. -/
def parseView (s : Str) : Option View :=
  if s == "home".data then some View.home
  else if s == "results".data then some View.results
  else if s == "about".data then some View.about
  else if s == "contact".data then some View.contact
  else if s == "suggest".data then some View.suggest
  else if s == "admin".data then some View.admin
  else none

/-- getInitialView from the source: the persisted value when it is one of
the six valid states, else home (a storage read failure is the none
input). -/
def getInitialView (saved : Option Str) : View :=
  match saved with
  | some s =>
    (match parseView s with
     | some v => v
     | none => View.home)
  | none => View.home

/-- Removal of the leading hash mark and optional slash, modelling the
anchored replace of viewFromHash. -/
def stripHashMark : Str → Str
  | '#' :: '/' :: rest => rest
  | '#' :: rest => rest
  | s => s

/-- viewFromHash from the source: lowercased fragment body switched over
the six views, defaulting to home. -/
def viewFromHash (hash : Str) : View :=
  match parseView (toLower (stripHashMark hash)) with
  | some v => v
  | none => View.home

/-- Composition of the persisted initial state with the mount effect from
the source: the state starts from the persisted value and the effect
overwrites it with the view derived from the current hash whenever the
two differ. -/
def mountView (saved : Option Str) (hash : Str) : View :=
  let cur := getInitialView saved
  let initial := viewFromHash hash
  if initial ≠ cur then initial else cur

/-- Modelled from the spec: the resolution order the claim describes,
where the hash overrides the persisted view only when a fragment is
present and names a valid view. Used only to compare the claim with the
code. -/
def specMountView (saved : Option Str) (hash : Str) : View :=
  let base := getInitialView saved
  if hash.isEmpty then base
  else
    match parseView (toLower (stripHashMark hash)) with
    | some v => v
    | none => base

/-! Submission/Moderation Workflow. -/

/-- Pending submission entity (mapped, camel case). -/
structure PendingSubmission where
  id : ℤ
  name : Str
  address : Str
  neighborhood : Str
  city : Str
  website : Str
  notes : Str
  submittedDate : Str
  status : Str
deriving DecidableEq

/-- Raw pending row (snake case). -/
structure PendingRow where
  id : ℤ
  name : Option Str
  address : Option Str
  neighborhood : Option Str
  city : Option Str
  website : Option Str
  notes : Option Str
  submitted_date : Option Str
  status : Option Str

/-- mapPendingRow from the source. The today argument models the current
date string used as the default submitted date. -/
def mapPendingRow (today : Str) (row : PendingRow) : PendingSubmission :=
  { id := row.id
    name := row.name.getD []
    address := row.address.getD []
    neighborhood := row.neighborhood.getD []
    city := row.city.getD []
    website := row.website.getD []
    notes := row.notes.getD []
    submittedDate := row.submitted_date.getD today
    status := row.status.getD "pending".data }

/-- Restaurant-insert payload (snake case) built from a pending
submission. -/
structure RestaurantInsert where
  name : Str
  address : Str
  neighborhood : Str
  city : Str
  oils_used : List Str
  oils_avoided : List Str
  dietary_tags : List Str
  verified : Bool
  verification_date : Option Str
  verification_method : Option Str
  website : Str
  instagram : Str
  price_range : Str
  order_type : Str
  sourcing_notes : Str
  image_url : Str
  rating : ℚ
  review_count : ℤ
  hours : Str
  cuisine : Str
  last_updated : Str
  phone : Str
  email : Str

/-- toRestaurantInsertFromPending from the source: submission fields pass
through and every unset field takes its placeholder default. -/
def toRestaurantInsertFromPending (today : Str) (submission : PendingSubmission) :
    RestaurantInsert :=
  { name := submission.name
    address := submission.address
    neighborhood :=
      if !submission.neighborhood.isEmpty then submission.neighborhood else "TBD".data
    city := submission.city
    oils_used := ["To Be Verified".data]
    oils_avoided := ["To Be Verified".data]
    dietary_tags := ["Pending Review".data]
    verified := false
    verification_date := none
    verification_method := none
    website := submission.website
    instagram := []
    price_range := "$$".data
    order_type := "Dine-in".data
    sourcing_notes := submission.notes
    image_url :=
      "https://images.unsplash.com/photo-1590846406792-0adc7f938f1d?w=400&h=300&fit=crop".data
    rating := 0
    review_count := 0
    hours := "TBD".data
    cuisine := "TBD".data
    last_updated := today
    phone := []
    email := [] }

/-- Toast kinds. -/
inductive ToastType where
  | success : ToastType
  | error : ToastType
  | info : ToastType
deriving DecidableEq

/-- Toast notice content (the random identifier only drives dismissal and
is not modelled). -/
structure ToastNotice where
  message : Str
  type : ToastType
deriving DecidableEq

/-- Slice of the component state touched by approveSubmission. -/
structure AdminState where
  restaurants : List Restaurant
  pendingSubmissions : List PendingSubmission
  toasts : List ToastNotice

/-- showToastMessage from the source, modelled as appending the notice. -/
def showToastMessage (st : AdminState) (message : Str) (t : ToastType) : AdminState :=
  { st with toasts := st.toasts ++ [{ message := message, type := t }] }

/-- Toast message of the insert failure branch. -/
def approveFailedMsg (msg : Str) : Str := "Approve failed: ".data ++ msg

/-- Toast message of the delete-after-insert failure branch. -/
def deleteWarnMsg (msg : Str) : Str :=
  "Warning: added to restaurants but failed to remove pending: ".data ++ msg

/-- Toast message of the success branch. -/
def approvedMsg : Str := "Submission approved and added to listings!".data

/-- approveSubmission from the source: the pending submission with the
given id is turned into an insert payload and handed to the backend
insert (modelled as a function of the payload); an insert failure only
adds an error toast; otherwise a delete failure adds a warning toast, and
in either delete outcome the echoed inserted row is mapped and appended
to the restaurants while the pending entry is filtered out, followed by a
success toast. The trailing consistency re-fetch is a separate fetchData
call and is not part of this transition. -/
def approveSubmission (today : Str) (st : AdminState) (submissionId : ℤ)
    (insertResp : RestaurantInsert → Except Str RestaurantRow)
    (deleteErr : Option Str) : AdminState :=
  match st.pendingSubmissions.find? (fun s => s.id == submissionId) with
  | none => st
  | some submission =>
    let payload := toRestaurantInsertFromPending today submission
    match insertResp payload with
    | Except.error msg => showToastMessage st (approveFailedMsg msg) ToastType.error
    | Except.ok inserted =>
      let st1 := match deleteErr with
        | some msg => showToastMessage st (deleteWarnMsg msg) ToastType.error
        | none => st
      let st2 := { st1 with
        restaurants := st1.restaurants ++ [mapRestaurantRow today inserted],
        pendingSubmissions := st1.pendingSubmissions.filter
          (fun s => !(s.id == submissionId)) }
      showToastMessage st2 approvedMsg ToastType.success

/-- Pending submission fixture for witnesses. -/
def pendingFixture : PendingSubmission :=
  { id := 7, name := "New Spot".data, address := "1 Main St".data,
    neighborhood := [], city := "NYC".data, website := [], notes := [],
    submittedDate := "2025-06-01".data, status := "pending".data }

/-- Row echoed by the backend insert in witnesses. -/
def insertedRowFixture : RestaurantRow :=
  { emptyRow with id := 99, name := some "New Spot".data }

/-- Backend insert oracle fixture for witnesses: always succeeds echoing
insertedRowFixture. -/
def insertRespFixture : RestaurantInsert → Except Str RestaurantRow :=
  fun _ => Except.ok insertedRowFixture

/-- Admin state fixture for witnesses. -/
def adminStateFixture : AdminState :=
  { restaurants := [], pendingSubmissions := [pendingFixture], toasts := [] }

/-! Helper lemmas about the string model. -/

theorem dropWhile_dropWhile_same (p : Char → Bool) (l : Str) :
    List.dropWhile p (List.dropWhile p l) = List.dropWhile p l := by
  induction l with
  | nil => rfl
  | cons c t ih =>
    by_cases h : p c = true
    · simp [List.dropWhile_cons, h, ih]
    · simp [List.dropWhile_cons, h]

theorem dropWhile_head_false {p : Char → Bool} {l : Str} {c : Char} {t : Str}
    (h : List.dropWhile p l = c :: t) : p c = false := by
  induction l with
  | nil => simp [List.dropWhile] at h
  | cons a b ih =>
    rw [List.dropWhile_cons] at h
    by_cases ha : p a = true
    · rw [if_pos ha] at h
      exact ih h
    · rw [if_neg ha] at h
      cases h
      exact Bool.not_eq_true _ ▸ ha

theorem dropWhile_trim_self (s : Str) :
    List.dropWhile isWS (trim s) = trim s := by
  cases h : trim s with
  | nil => simp
  | cons c t =>
    have hpre : (c :: t) <+: (s.dropWhile isWS) := by
      have h2 : ((s.dropWhile isWS).reverse.dropWhile isWS).reverse
          <+: (s.dropWhile isWS).reverse.reverse :=
        (List.reverse_prefix).2 (List.dropWhile_suffix isWS)
      rw [List.reverse_reverse] at h2
      rw [← h]
      exact h2
    obtain ⟨u, hu⟩ := hpre
    have hhead : s.dropWhile isWS = c :: (t ++ u) := by
      simpa using hu.symm
    have hc : isWS c = false := dropWhile_head_false hhead
    simp [List.dropWhile_cons, hc]

theorem trim_trim (s : Str) : trim (trim s) = trim s := by
  show ((trim s |>.dropWhile isWS).reverse.dropWhile isWS).reverse = trim s
  rw [dropWhile_trim_self]
  show (((((s.dropWhile isWS).reverse.dropWhile isWS).reverse).reverse).dropWhile isWS).reverse
      = trim s
  rw [List.reverse_reverse, dropWhile_dropWhile_same]
  rfl

theorem canonicalCity_of_lookup_none {x : Str}
    (h : lookupStr cityMap (toLower (trim x)) = none) :
    canonicalCity x = trim x := by
  unfold canonicalCity
  simp only [h]

theorem cityMap_values_fixed :
    ∀ q ∈ cityMap, canonicalCity q.2 = q.2 := by decide

/-- C5: canonicalCity is idempotent on every input string, and on an
unknown city (no synonym-table entry for the lowercased trimmed value) it
returns the unchanged trimmed input. -/
theorem c5_canonicalCity_idempotent (x : Str) :
    canonicalCity (canonicalCity x) = canonicalCity x ∧
    (lookupStr cityMap (toLower (trim x)) = none → canonicalCity x = trim x) := by
  constructor
  · cases h : lookupStr cityMap (toLower (trim x)) with
    | none =>
      rw [canonicalCity_of_lookup_none h]
      have h2 : lookupStr cityMap (toLower (trim (trim x))) = none := by
        rw [trim_trim]
        exact h
      rw [canonicalCity_of_lookup_none h2, trim_trim]
    | some c =>
      have hc : canonicalCity x = c := by
        unfold canonicalCity
        simp only [h]
      rw [hc]
      obtain ⟨q, hq, hqc⟩ : ∃ q ∈ cityMap, q.2 = c := by
        unfold lookupStr at h
        cases hf : List.find? (fun p => p.1 == toLower (trim x)) cityMap with
        | none => rw [hf] at h; simp at h
        | some q =>
          rw [hf] at h
          refine ⟨q, List.mem_of_find?_eq_some hf, ?_⟩
          simpa using h
      rw [← hqc]
      exact cityMap_values_fixed q hq
  · exact canonicalCity_of_lookup_none

/-- C5 witness: at the concrete unknown city Boston both conjuncts hold. -/
theorem c5_canonicalCity_idempotent_witness :
    canonicalCity (canonicalCity "Boston".data) = canonicalCity "Boston".data ∧
    canonicalCity "Boston".data = trim "Boston".data :=
  ⟨(c5_canonicalCity_idempotent "Boston".data).1,
   (c5_canonicalCity_idempotent "Boston".data).2 (by decide)⟩

theorem mem_trim {c : Char} {s : Str} (h : c ∈ trim s) : c ∈ s := by
  unfold trim at h
  rw [List.mem_reverse] at h
  have h1 : c ∈ (s.dropWhile isWS).reverse :=
    (List.dropWhile_suffix isWS).sublist.subset h
  rw [List.mem_reverse] at h1
  exact (List.dropWhile_suffix isWS).sublist.subset h1

theorem mem_collapseWSAux {c : Char} :
    ∀ (b : Bool) (l : Str), c ∈ collapseWSAux b l → c = ' ' ∨ c ∈ l := by
  intro b l
  induction l generalizing b with
  | nil => intro h; simp [collapseWSAux] at h
  | cons a t ih =>
    intro h
    rw [collapseWSAux] at h
    by_cases ha : isWS a = true
    · rw [if_pos ha] at h
      cases b with
      | true =>
        rcases ih true h with h2 | h2
        · exact Or.inl h2
        · exact Or.inr (List.mem_cons_of_mem _ h2)
      | false =>
        rcases List.mem_cons.mp h with h2 | h2
        · exact Or.inl h2
        · rcases ih true h2 with h3 | h3
          · exact Or.inl h3
          · exact Or.inr (List.mem_cons_of_mem _ h3)
    · rw [if_neg ha] at h
      rcases List.mem_cons.mp h with h2 | h2
      · subst h2; exact Or.inr (List.mem_cons_self _ _)
      · rcases ih false h2 with h3 | h3
        · exact Or.inl h3
        · exact Or.inr (List.mem_cons_of_mem _ h3)

theorem mem_collapseWS {c : Char} (l : Str) (h : c ∈ collapseWS l) :
    c = ' ' ∨ c ∈ l :=
  mem_collapseWSAux false l h

theorem toLower_ne_dash {c : Char} (h1 : c ≠ '–') (h2 : c ≠ '—') :
    Char.toLower c ≠ '–' ∧ Char.toLower c ≠ '—' := by
  by_cases hle : c.toNat ≥ 65 ∧ c.toNat ≤ 90
  · have hlow : Char.toLower c = Char.ofNat (c.toNat + 32) := by
      show (if c.toNat ≥ 65 ∧ c.toNat ≤ 90 then Char.ofNat (c.toNat + 32) else c)
          = Char.ofNat (c.toNat + 32)
      rw [if_pos hle]
    obtain ⟨h65, h90⟩ := hle
    have hv : (Char.ofNat (c.toNat + 32)).toNat = c.toNat + 32 := by
      set n := c.toNat with hn
      interval_cases n <;> decide
    have hda : Char.toNat '–' = 8211 := by decide
    have hdb : Char.toNat '—' = 8212 := by decide
    rw [hlow]
    constructor
    · intro heq
      have h3 := congrArg Char.toNat heq
      rw [hv, hda] at h3
      omega
    · intro heq
      have h3 := congrArg Char.toNat heq
      rw [hv, hdb] at h3
      omega
  · have hlow : Char.toLower c = c := by
      show (if c.toNat ≥ 65 ∧ c.toNat ≤ 90 then Char.ofNat (c.toNat + 32) else c) = c
      rw [if_neg hle]
    rw [hlow]
    exact ⟨h1, h2⟩

theorem dashNorm_eq_self : ∀ l : Str, (∀ c ∈ l, c ≠ '–' ∧ c ≠ '—') → dashNorm l = l := by
  intro l
  induction l with
  | nil => intro _; rfl
  | cons a t ih =>
    intro h
    obtain ⟨h1, h2⟩ := h a (List.mem_cons_self a t)
    show (if a == '-' || a == '–' || a == '—' then '-' else a) :: dashNorm t = a :: t
    have hcond : (a == '-' || a == '–' || a == '—') = (a == '-') := by
      rcases Bool.eq_false_or_eq_true (a == '-') with hb | hb <;>
        simp [hb, h1, h2]
    rw [hcond]
    have hres : (if a == '-' then '-' else a) = a := by
      by_cases hb : a = '-'
      · subst hb; rfl
      · simp [hb]
    rw [hres, ih (fun c hc => h c (List.mem_cons_of_mem _ hc))]

/-- C6 counterexample: the unknown city Boston has no synonym-table entry,
yet canonicalCity returns the trimmed input with its original case, not the
lowercased trimmed whitespace-collapsed value the claim describes. -/
theorem c6_counterexample :
    lookupStr cityMap (toLower (trim "Boston".data)) = none ∧
    canonicalCity "Boston".data = "Boston".data ∧
    specLowerTrimCollapse "Boston".data = "boston".data ∧
    "Boston".data ≠ "boston".data := by decide

/-- C6 (amended): on inputs with no synonym-table entry, canonicalDiet
falls back to the trimmed, lowercased, whitespace-collapsed and
dash-normalized input (which, absent en or em dashes, is exactly the
lowercased trimmed whitespace-collapsed input), while canonicalCity falls
back to the trimmed input unchanged, neither lowercased nor
whitespace-collapsed. -/
theorem c6_canonicalization_fallbacks (s : Str) :
    (lookupStr dietMap (dietKey s) = none → canonicalDiet s = dietKey s) ∧
    ((∀ c ∈ s, c ≠ '–' ∧ c ≠ '—') → dietKey s = specLowerTrimCollapse s) ∧
    (lookupStr cityMap (toLower (trim s)) = none → canonicalCity s = trim s) := by
  refine ⟨?_, ?_, canonicalCity_of_lookup_none⟩
  · intro h
    unfold canonicalDiet
    by_cases hs : s.isEmpty = true
    · rw [if_pos hs]
      have hnil : s = [] := List.isEmpty_iff.mp hs
      subst hnil
      rfl
    · rw [if_neg hs]
      simp only [h]
  · intro h
    unfold dietKey specLowerTrimCollapse
    apply dashNorm_eq_self
    intro c hc
    rcases mem_collapseWS _ hc with h1 | h1
    · subst h1; exact ⟨by decide, by decide⟩
    · obtain ⟨c0, hc0, rfl⟩ := List.mem_map.mp h1
      have hc0s := mem_trim hc0
      exact toLower_ne_dash (h c0 hc0s).1 (h c0 hc0s).2

/-- C6 witness: concrete unknown diet and city values exercise all three
conjuncts of the amended statement. -/
theorem c6_canonicalization_fallbacks_witness :
    canonicalDiet "Carnivore  Friendly".data
      = specLowerTrimCollapse "Carnivore  Friendly".data ∧
    canonicalCity " Boston ".data = trim " Boston ".data := by
  constructor
  · have h := c6_canonicalization_fallbacks "Carnivore  Friendly".data
    rw [h.1 (by decide)]
    exact h.2.1 (by decide)
  · exact (c6_canonicalization_fallbacks " Boston ".data).2.2 (by decide)

/-! Lemmas for the image-resolution pipeline. -/

theorem if_abs_some {s0 s : Str}
    (h : (if isAbsUrl s0 = true then some s0 else none) = some s) :
    isAbsUrl s = true := by
  by_cases ha : isAbsUrl s0 = true
  · rw [if_pos ha] at h
    cases h
    exact ha
  · rw [if_neg ha] at h
    cases h

theorem entryUrl_isAbs {x : JsonVal} {s : Str} (h : entryUrl x = some s) :
    isAbsUrl s = true := by
  unfold entryUrl at h
  split at h
  · exact if_abs_some h
  · dsimp only at h
    split at h
    · exact if_abs_some h
    · cases h
  · cases h

theorem findSome?_entryUrl_isAbs {l : List JsonVal} {s : Str}
    (h : l.findSome? entryUrl = some s) : isAbsUrl s = true := by
  obtain ⟨x, _, hx⟩ := List.exists_of_findSome?_eq_some h
  exact entryUrl_isAbs hx

theorem fromObjResult_isAbs {l : List JsonVal} {s : Str}
    (h : fromObjResult l = some s) : isAbsUrl s = true := by
  unfold fromObjResult at h
  split at h
  · split at h
    · exact if_abs_some h
    · cases h
  · cases h

theorem objCandidate_isAbs {f : List (Str × JsonVal)} {s : Str}
    (h : objCandidate f = some s) : isAbsUrl s = true := by
  unfold objCandidate at h
  dsimp only at h
  repeat' split at h
  all_goals
    first
    | (cases h; assumption)
    | exact findSome?_entryUrl_isAbs h
    | cases h

theorem parsedCandidate_isAbs {v : JsonVal} {s : Str}
    (h : parsedCandidate v = some s) : isAbsUrl s = true := by
  unfold parsedCandidate at h
  split at h
  · rename_i l heq
    split at h
    · rename_i x s1 hfind
      cases h
      have hx := List.find?_some hfind
      simpa using hx
    · exact fromObjResult_isAbs h
  · exact objCandidate_isAbs h
  · exact if_abs_some h
  · cases h

theorem isAbsUrl_nil_false : isAbsUrl [] = false := by decide

theorem fallbackImage_isAbs : isAbsUrl fallbackImage = true := by decide

theorem resolvePrimaryImage_isAbs (row : RestaurantRow) :
    isAbsUrl (resolvePrimaryImage row) = true := by
  unfold resolvePrimaryImage
  dsimp only
  split
  · rename_i hcond
    exact (Bool.and_eq_true _ _ ▸ hcond).2
  · split
    · exact fallbackImage_isAbs
    · split
      · rename_i url heq
        repeat' split at heq
        all_goals
          first
          | exact parsedCandidate_isAbs heq
          | cases heq
      · repeat' split
        all_goals
          first
          | assumption
          | exact fallbackImage_isAbs

/-- C3: the resolved imageUrl is always an absolute http(s) URL; the
trimmed primary field wins whenever it is an absolute URL; mapRestaurantRow
uses exactly this resolution; and on the concrete example of the spec
(primary not-a-url, secondary a JSON array holding one absolute and one
relative entry) the first absolute entry is chosen. -/
theorem c3_image_resolution (row : RestaurantRow) :
    isAbsUrl (resolvePrimaryImage row) = true ∧
    (isAbsUrl (trim (row.image_url.getD [])) = true →
      resolvePrimaryImage row = trim (row.image_url.getD [])) ∧
    (∀ today, (mapRestaurantRow today row).imageUrl = resolvePrimaryImage row) ∧
    resolvePrimaryImage { emptyRow with
      image_url := some "not-a-url".data,
      image_urls := JsonVal.str "[\"https://x/a.jpg\",\"not-a-url\"]".data }
      = "https://x/a.jpg".data := by
  refine ⟨resolvePrimaryImage_isAbs row, ?_, fun _ => rfl, by decide⟩
  intro h
  have hne : (trim (row.image_url.getD [])).isEmpty = false := by
    cases he : (trim (row.image_url.getD [])).isEmpty with
    | false => rfl
    | true =>
      rw [List.isEmpty_iff.mp he] at h
      rw [isAbsUrl_nil_false] at h
      cases h
  unfold resolvePrimaryImage
  rw [if_pos (by rw [hne, h]; rfl)]

/-- C3 witness: the hypothesis of the primary-precedence conjunct holds at
a concrete row whose primary field is an absolute URL with padding. -/
theorem c3_image_resolution_witness :
    resolvePrimaryImage { emptyRow with
      image_url := some " https://ok.example/img.png ".data }
    = trim (" https://ok.example/img.png ".data) :=
  (c3_image_resolution { emptyRow with
      image_url := some " https://ok.example/img.png ".data }).2.1 (by decide)

/-- C2: the Field Normalizer is a total function from raw rows to
canonical restaurants whose list fields are always lists: oilsUsed and
oilsAvoided come from splitToArray and dietaryTags from the join rows, and
splitToArray sends null to the empty list, an array to itself with falsy
entries removed, and a delimited string to the split-and-trimmed list with
empty pieces removed. -/
theorem c2_normalizer_list_fields (today : Str) (row : RestaurantRow) :
    (mapRestaurantRow today row).oilsUsed = splitToArray row.oils_used ∧
    (mapRestaurantRow today row).oilsAvoided = splitToArray row.oils_avoided ∧
    (mapRestaurantRow today row).dietaryTags = tagsFromJoin row ∧
    splitToArray none = [] ∧
    (∀ l : List Str, splitToArray (some (Sum.inr l)) = l.filter (fun s => !s.isEmpty)) ∧
    (∀ s : Str, splitToArray (some (Sum.inl s)) =
      ((s.splitOnP (fun c => c == ';' || c == ',' || c == '\n')).map trim).filter
        (fun x => !x.isEmpty)) :=
  ⟨rfl, rfl, rfl, rfl, fun _ => rfl, fun _ => rfl⟩

/-! Lemmas for verification-method classification. -/

theorem any_strIncludes_ne_nil {ks : List Str} {m : Str}
    (hk : ∀ t ∈ ks, t.isEmpty = false)
    (h : ks.any (fun t => strIncludes m t) = true) : m ≠ [] := by
  intro hm
  subst hm
  obtain ⟨t, ht, hinc⟩ := List.any_eq_true.mp h
  unfold strIncludes at hinc
  rw [hk t ht] at hinc
  cases hinc

theorem classify_of_visited {s : Str}
    (h : visitedKeywords.any (fun t => strIncludes (toLower (trim s)) t) = true) :
    classifyVerificationMethod (some s) = some "Crunch Team Visited".data := by
  have hs : s ≠ [] := by
    intro hnil
    exact any_strIncludes_ne_nil (by decide) h (by rw [hnil]; rfl)
  unfold classifyVerificationMethod
  dsimp only
  rw [if_neg (by simpa [List.isEmpty_iff] using hs), if_pos h]

theorem classify_of_called {s : Str}
    (hv : visitedKeywords.any (fun t => strIncludes (toLower (trim s)) t) = false)
    (hc : calledKeywords.any (fun t => strIncludes (toLower (trim s)) t) = true) :
    classifyVerificationMethod (some s) = some "Crunch Team Called".data := by
  have hs : s ≠ [] := by
    intro hnil
    exact any_strIncludes_ne_nil (by decide) hc (by rw [hnil]; rfl)
  unfold classifyVerificationMethod
  dsimp only
  rw [if_neg (by simpa [List.isEmpty_iff] using hs),
    if_neg (by rw [hv]; exact Bool.false_ne_true), if_pos hc]

/-- C4: a raw verification-method value matching the visited or called
keyword set (case-insensitive substring) classifies to the corresponding
distinct canonical method and yields the non-empty verified display label;
a non-empty value matching neither set classifies as Owner Submitted;
empty or null stays null; Owner Submitted and null always yield an empty
label; mapRestaurantRow uses exactly this classification; and the two
concrete examples of the spec behave as stated. -/
theorem c4_verification_classification (s : Str) :
    (visitedKeywords.any (fun t => strIncludes (toLower (trim s)) t) = true →
      classifyVerificationMethod (some s) = some "Crunch Team Visited".data) ∧
    (visitedKeywords.any (fun t => strIncludes (toLower (trim s)) t) = false →
     calledKeywords.any (fun t => strIncludes (toLower (trim s)) t) = true →
      classifyVerificationMethod (some s) = some "Crunch Team Called".data) ∧
    ((visitedKeywords.any (fun t => strIncludes (toLower (trim s)) t) = true ∨
      calledKeywords.any (fun t => strIncludes (toLower (trim s)) t) = true) →
      getVerifyLabel (classifyVerificationMethod (some s)) = "Verified By Crunch".data) ∧
    (s ≠ [] →
     visitedKeywords.any (fun t => strIncludes (toLower (trim s)) t) = false →
     calledKeywords.any (fun t => strIncludes (toLower (trim s)) t) = false →
      classifyVerificationMethod (some s) = some "Owner Submitted".data) ∧
    (classifyVerificationMethod none = none ∧
     classifyVerificationMethod (some []) = none) ∧
    (getVerifyLabel (some "Owner Submitted".data) = [] ∧ getVerifyLabel none = []) ∧
    "Crunch Team Visited".data ≠ "Crunch Team Called".data ∧
    (∀ today row, (mapRestaurantRow today row).verificationMethod
      = classifyVerificationMethod row.verification_method) ∧
    (classifyVerificationMethod (some "Phone call from team".data)
      = some "Crunch Team Called".data ∧
     classifyVerificationMethod (some "submitted by owner".data)
      = some "Owner Submitted".data) := by
  refine ⟨classify_of_visited, classify_of_called, ?_, ?_, ⟨rfl, rfl⟩,
    ⟨by decide, by decide⟩, by decide, fun _ _ => rfl, ⟨by decide, by decide⟩⟩
  · intro h
    cases hv : visitedKeywords.any (fun t => strIncludes (toLower (trim s)) t) with
    | true =>
      rw [classify_of_visited hv]
      decide
    | false =>
      have hc : calledKeywords.any (fun t => strIncludes (toLower (trim s)) t) = true := by
        rcases h with h | h
        · rw [hv] at h; cases h
        · exact h
      rw [classify_of_called hv hc]
      decide
  · intro hne hv hc
    unfold classifyVerificationMethod
    dsimp only
    rw [if_neg (by simpa [List.isEmpty_iff] using hne),
      if_neg (by rw [hv]; exact Bool.false_ne_true),
      if_neg (by rw [hc]; exact Bool.false_ne_true)]

/-- C4 witness: concrete raw values discharge each hypothesis of the
classification theorem. -/
theorem c4_verification_classification_witness :
    classifyVerificationMethod (some "Phone call from team".data)
      = some "Crunch Team Called".data ∧
    getVerifyLabel (classifyVerificationMethod (some "Phone call from team".data))
      = "Verified By Crunch".data ∧
    classifyVerificationMethod (some "submitted by owner".data)
      = some "Owner Submitted".data ∧
    classifyVerificationMethod (some "Team visited us".data)
      = some "Crunch Team Visited".data :=
  ⟨(c4_verification_classification "Phone call from team".data).2.1
      (by decide) (by decide),
   (c4_verification_classification "Phone call from team".data).2.2.1
      (Or.inr (by decide)),
   (c4_verification_classification "submitted by owner".data).2.2.2.1
      (by decide) (by decide) (by decide),
   (c4_verification_classification "Team visited us".data).1 (by decide)⟩

/-! Lemmas for the Filter/Sort Engine. -/

theorem bool_or_imp {a b : Bool} : ((!a || b) = true) ↔ (a = true → b = true) := by
  cases a <;> cases b <;> simp

theorem diet_filter_iff (diet tags : List Str) :
    ((diet.map canonicalDiet).isEmpty
      || (diet.map canonicalDiet).any (fun d => (tags.map canonicalDiet).contains d)) = true
    ↔ (diet = [] ∨ ∃ d ∈ diet, canonicalDiet d ∈ tags.map canonicalDiet) := by
  rw [Bool.or_eq_true]
  constructor
  · rintro (h | h)
    · exact Or.inl ((List.map_eq_nil_iff).mp (List.isEmpty_iff.mp h))
    · right
      obtain ⟨x, hx, hc⟩ := List.any_eq_true.mp h
      obtain ⟨d, hd, rfl⟩ := List.mem_map.mp hx
      exact ⟨d, hd, by simpa [List.contains, List.elem_iff] using hc⟩
  · rintro (h | h)
    · left
      simp [h, List.isEmpty_iff]
    · right
      obtain ⟨d, hd, hmem⟩ := h
      exact List.any_eq_true.mpr ⟨canonicalDiet d, List.mem_map.mpr ⟨d, hd, rfl⟩,
        by simpa [List.contains, List.elem_iff] using hmem⟩

theorem oils_filter_iff (oils used : List Str) :
    (oils.isEmpty || oils.any (fun oil => used.contains oil)) = true
    ↔ (oils = [] ∨ ∃ oil ∈ oils, oil ∈ used) := by
  rw [Bool.or_eq_true]
  simp [List.isEmpty_iff, List.any_eq_true, List.contains, List.elem_iff]

theorem strfield_filter_iff (f v : Str) :
    (f.isEmpty || v == f) = true ↔ (f = [] ∨ v = f) := by
  rw [Bool.or_eq_true]
  simp [List.isEmpty_iff]

theorem passesFilters_iff (st : FilterState) (r : Restaurant) :
    passesFilters st r = true ↔
      getCity r = canonicalCity st.selectedCity ∧
      (strIncludes (toLower r.name) (toLower st.searchQuery) = true ∨
       strIncludes (toLower r.cuisine) (toLower st.searchQuery) = true ∨
       strIncludes (toLower r.neighborhood) (toLower st.searchQuery) = true) ∧
      (st.filters.diet = [] ∨
       ∃ d ∈ st.filters.diet, canonicalDiet d ∈ r.dietaryTags.map canonicalDiet) ∧
      (st.filters.oils = [] ∨ ∃ oil ∈ st.filters.oils, oil ∈ r.oilsUsed) ∧
      (st.filters.neighborhood = [] ∨ r.neighborhood = st.filters.neighborhood) ∧
      (st.filters.priceRange = [] ∨ r.priceRange = st.filters.priceRange) ∧
      (st.filters.verified = true → r.verified = true) := by
  unfold passesFilters
  dsimp only
  simp only [Bool.and_eq_true, and_assoc]
  exact and_congr beq_iff_eq
    (and_congr (by simp [Bool.or_eq_true, or_assoc])
      (and_congr (diet_filter_iff st.filters.diet r.dietaryTags)
        (and_congr (oils_filter_iff st.filters.oils r.oilsUsed)
          (and_congr (strfield_filter_iff st.filters.neighborhood r.neighborhood)
            (and_congr (strfield_filter_iff st.filters.priceRange r.priceRange)
              bool_or_imp)))))

/-- C1: a restaurant appears in the Filter/Sort Engine output exactly
when it is among the input restaurants and passes every active dimension:
derived canonical city equal to the canonical selected city;
case-insensitive substring match of the query against name, cuisine or
neighborhood; some selected diet tag present, after canonicalization, in
the canonicalized tag set when the diet selection is non-empty; some
selected oil present raw in oilsUsed when the oil selection is non-empty;
exact neighborhood and price matches when those filters are set; and
verified true when the verified filter is on. -/
theorem c1_filteredRestaurants_mem_iff
    (restaurants : List Restaurant) (st : FilterState) (r : Restaurant) :
    r ∈ filteredRestaurants restaurants st ↔
      r ∈ restaurants ∧
      (getCity r = canonicalCity st.selectedCity ∧
       (strIncludes (toLower r.name) (toLower st.searchQuery) = true ∨
        strIncludes (toLower r.cuisine) (toLower st.searchQuery) = true ∨
        strIncludes (toLower r.neighborhood) (toLower st.searchQuery) = true) ∧
       (st.filters.diet = [] ∨
        ∃ d ∈ st.filters.diet, canonicalDiet d ∈ r.dietaryTags.map canonicalDiet) ∧
       (st.filters.oils = [] ∨ ∃ oil ∈ st.filters.oils, oil ∈ r.oilsUsed) ∧
       (st.filters.neighborhood = [] ∨ r.neighborhood = st.filters.neighborhood) ∧
       (st.filters.priceRange = [] ∨ r.priceRange = st.filters.priceRange) ∧
       (st.filters.verified = true → r.verified = true)) := by
  unfold filteredRestaurants
  rw [List.mem_mergeSort, List.mem_filter, passesFilters_iff]

/-- C1 witness: on the spec example (A and B in New York with tags Keto
and Vegan, C in Los Angeles with tag Keto; selected city NYC and diet
filter Keto) restaurant A is in the output, and the output is exactly the
one-element list A. -/
theorem c1_filteredRestaurants_mem_iff_witness :
    restA ∈ filteredRestaurants [restA, restB, restC] exampleFilterState ∧
    filteredRestaurants [restA, restB, restC] exampleFilterState = [restA] :=
  ⟨(c1_filteredRestaurants_mem_iff [restA, restB, restC] exampleFilterState restA).2
      ⟨List.mem_cons_self _ _, by decide, by decide, by decide, by decide,
       by decide, by decide, by decide⟩,
   by
    unfold filteredRestaurants
    have hf : List.filter (passesFilters exampleFilterState) [restA, restB, restC]
        = [restA] := by rfl
    rw [hf, List.mergeSort_singleton]⟩

/-- C7: the coordinator uses page size 20 with a zero-based cursor; a
reset fetch requests offsets 0 through 19, replaces the collection with
the mapped page and sets the cursor to 1; a non-reset fetch requests the
range starting at cursor times 20, appends the mapped page and advances
the cursor; and after a successful fetch hasMore holds exactly when the
end offset of the requested range is below the exact count when one is
available, else exactly when the page was full. -/
theorem c7_fetchData_pagination (today : Str) (st : FetchState) (reset : Bool)
    (rows : List RestaurantRow) (count : Option ℕ) :
    pageSize = 20 ∧
    (requestFrom true st.page = 0 ∧ requestTo true st.page = 19 ∧
     requestFrom false st.page = st.page * 20 ∧
     requestTo false st.page = st.page * 20 + 19) ∧
    ((fetchData today st true (Except.ok (rows, count))).restaurants
        = rows.map (mapRestaurantRow today) ∧
     (fetchData today st true (Except.ok (rows, count))).page = 1) ∧
    ((fetchData today st false (Except.ok (rows, count))).restaurants
        = st.restaurants ++ rows.map (mapRestaurantRow today) ∧
     (fetchData today st false (Except.ok (rows, count))).page = st.page + 1) ∧
    (∀ c, count = some c →
      ((fetchData today st reset (Except.ok (rows, count))).hasMore = true
        ↔ requestTo reset st.page + 1 < c)) ∧
    (count = none →
      ((fetchData today st reset (Except.ok (rows, count))).hasMore = true
        ↔ rows.length = 20)) := by
  refine ⟨rfl, ⟨rfl, rfl, rfl, ?_⟩, ⟨rfl, rfl⟩, ⟨rfl, rfl⟩, ?_, ?_⟩
  · show st.page * pageSize + pageSize - 1 = st.page * 20 + 19
    show st.page * 20 + 20 - 1 = st.page * 20 + 19
    omega
  · intro c hc
    subst hc
    show decide (requestTo reset st.page + 1 < c) = true ↔ _
    exact decide_eq_true_iff
  · intro hc
    subst hc
    show (rows.length == pageSize) = true ↔ rows.length = 20
    exact beq_iff_eq

/-- C7 witness: with the count available hasMore follows from the range
comparison, and without a count a full page of twenty rows keeps hasMore
true. -/
theorem c7_fetchData_pagination_witness :
    (fetchData "2025-06-01".data initFetchState true
      (Except.ok ([], some 50))).hasMore = true ∧
    (fetchData "2025-06-01".data initFetchState false
      (Except.ok (List.replicate 20 emptyRow, none))).hasMore = true :=
  ⟨((c7_fetchData_pagination "2025-06-01".data initFetchState true [] (some 50)
      ).2.2.2.2.1 50 rfl).mpr (by decide),
   ((c7_fetchData_pagination "2025-06-01".data initFetchState false
      (List.replicate 20 emptyRow) none).2.2.2.2.2 rfl).mpr
      (by simp [List.length_replicate])⟩

/-- C10: a failed restaurants query leaves the collection, the cursor and
hasMore unchanged for both reset modes and only records the load-error
message. -/
theorem c10_fetchData_error (today : Str) (st : FetchState) (reset : Bool) (msg : Str) :
    (fetchData today st reset (Except.error msg)).restaurants = st.restaurants ∧
    (fetchData today st reset (Except.error msg)).page = st.page ∧
    (fetchData today st reset (Except.error msg)).hasMore = st.hasMore ∧
    (fetchData today st reset (Except.error msg)).loadError
      = some ("Failed to load restaurants: ".data ++ msg) :=
  ⟨rfl, rfl, rfl, rfl⟩

/-- C8 counterexample: with the valid persisted view about and no URL
fragment at all, the claim resolution (no override without a fragment)
keeps about, but the mount effect recomputes the view from the empty hash
and lands on home. -/
theorem c8_counterexample :
    getInitialView (some "about".data) = View.about ∧
    specMountView (some "about".data) [] = View.about ∧
    mountView (some "about".data) [] = View.home ∧
    View.home ≠ View.about := by decide

/-- C8 (amended): the persisted stored value (when one of the six valid
states, else home) only provides the pre-mount view; on mount the view is
always recomputed from the URL fragment, so a recognized fragment yields
its view and an absent or unrecognized fragment yields home, regardless
of the persisted value. -/
theorem c8_view_resolution (saved : Option Str) (hash : Str) :
    mountView saved hash = viewFromHash hash ∧
    (∀ v, parseView (toLower (stripHashMark hash)) = some v → viewFromHash hash = v) ∧
    (parseView (toLower (stripHashMark hash)) = none → viewFromHash hash = View.home) ∧
    (∀ s, saved = some s → ∀ v, parseView s = some v → getInitialView saved = v) ∧
    (saved.bind parseView = none → getInitialView saved = View.home) := by
  refine ⟨?_, ?_, ?_, ?_, ?_⟩
  · unfold mountView
    dsimp only
    by_cases h : viewFromHash hash ≠ getInitialView saved
    · rw [if_pos h]
    · rw [if_neg h]
      exact (not_ne_iff.mp h).symm
  · intro v hv
    unfold viewFromHash
    rw [hv]
  · intro hv
    unfold viewFromHash
    rw [hv]
  · intro s hs v hv
    subst hs
    unfold getInitialView
    dsimp only
    rw [hv]
  · intro hb
    cases saved with
    | none => rfl
    | some s =>
      unfold getInitialView
      dsimp only
      rw [show parseView s = none from hb]

/-- C8 witness: concrete persisted values and fragments exercise the
amended resolution, including the unknown fragment landing on home. -/
theorem c8_view_resolution_witness :
    mountView (some "about".data) "#/unknown".data = View.home ∧
    viewFromHash "#/unknown".data = View.home ∧
    viewFromHash "#/results".data = View.results ∧
    getInitialView (some "about".data) = View.about := by
  refine ⟨?_, ?_, ?_, ?_⟩
  · rw [(c8_view_resolution (some "about".data) "#/unknown".data).1]
    exact (c8_view_resolution (some "about".data) "#/unknown".data).2.2.1 (by decide)
  · exact (c8_view_resolution none "#/unknown".data).2.2.1 (by decide)
  · exact (c8_view_resolution none "#/results".data).2.1 View.results (by decide)
  · exact (c8_view_resolution (some "about".data) [] ).2.2.2.1 "about".data rfl
      View.about (by decide)

/-- C9: approving a present pending submission builds an insert payload
whose unset fields take the placeholder defaults (oils To Be Verified,
rating 0, hours TBD); when the insert succeeds, the pending collection no
longer contains that id, the restaurant collection contains the mapped
inserted row, and a delete failure only adds the warning toast while the
same local update still proceeds. -/
theorem c9_approveSubmission (today : Str) (st : AdminState) (submissionId : ℤ)
    (sub : PendingSubmission)
    (insertResp : RestaurantInsert → Except Str RestaurantRow)
    (row : RestaurantRow) (deleteErr : Option Str)
    (hfind : st.pendingSubmissions.find? (fun s => s.id == submissionId) = some sub)
    (hok : insertResp (toRestaurantInsertFromPending today sub) = Except.ok row) :
    (toRestaurantInsertFromPending today sub).oils_used = ["To Be Verified".data] ∧
    (toRestaurantInsertFromPending today sub).oils_avoided = ["To Be Verified".data] ∧
    (toRestaurantInsertFromPending today sub).rating = 0 ∧
    (toRestaurantInsertFromPending today sub).hours = "TBD".data ∧
    (∀ p ∈ (approveSubmission today st submissionId insertResp deleteErr).pendingSubmissions,
      p.id ≠ submissionId) ∧
    mapRestaurantRow today row
      ∈ (approveSubmission today st submissionId insertResp deleteErr).restaurants ∧
    (∀ msg, deleteErr = some msg →
      ({ message := deleteWarnMsg msg, type := ToastType.error } : ToastNotice)
        ∈ (approveSubmission today st submissionId insertResp deleteErr).toasts) := by
  have happ : approveSubmission today st submissionId insertResp deleteErr
      = (let st1 := match deleteErr with
          | some msg => showToastMessage st (deleteWarnMsg msg) ToastType.error
          | none => st
        let st2 := { st1 with
          restaurants := st1.restaurants ++ [mapRestaurantRow today row],
          pendingSubmissions := st1.pendingSubmissions.filter
            (fun s => !(s.id == submissionId)) }
        showToastMessage st2 approvedMsg ToastType.success) := by
    unfold approveSubmission
    rw [hfind]
    dsimp only
    rw [hok]
  refine ⟨rfl, rfl, rfl, rfl, ?_, ?_, ?_⟩
  · intro p hp
    rw [happ] at hp
    cases deleteErr with
    | none =>
      simp [showToastMessage] at hp
      exact hp.2
    | some m =>
      simp [showToastMessage] at hp
      exact hp.2
  · rw [happ]
    cases deleteErr <;>
      simp [showToastMessage]
  · intro msg hmsg
    subst hmsg
    rw [happ]
    simp [showToastMessage]

/-- C9 witness: the concrete pending fixture is approved with a failing
delete; the pending list empties, the mapped echoed row lands in the
restaurants, and the warning toast is recorded. -/
theorem c9_approveSubmission_witness :
    (∀ p ∈ (approveSubmission "2025-06-02".data adminStateFixture 7
        insertRespFixture (some "boom".data)).pendingSubmissions, p.id ≠ 7) ∧
    mapRestaurantRow "2025-06-02".data insertedRowFixture
      ∈ (approveSubmission "2025-06-02".data adminStateFixture 7
          insertRespFixture (some "boom".data)).restaurants ∧
    ({ message := deleteWarnMsg "boom".data, type := ToastType.error } : ToastNotice)
      ∈ (approveSubmission "2025-06-02".data adminStateFixture 7
          insertRespFixture (some "boom".data)).toasts := by
  have h := c9_approveSubmission "2025-06-02".data adminStateFixture 7
    pendingFixture insertRespFixture insertedRowFixture (some "boom".data)
    (by rfl) (by rfl)
  exact ⟨h.2.2.2.2.1, h.2.2.2.2.2.1, h.2.2.2.2.2.2 "boom".data rfl⟩

end Crunch
